import Mathlib

/-
Shallow embedding of the HAR performance analyzer (src/har-analyzer.js).

Conventions of the embedding:
- JS numbers (timestamps in epoch milliseconds, durations in milliseconds)
  are modelled as rationals.  Entry.start stands for
  new Date(entry.startedDateTime).getTime().
- JS strings are modelled as lists of characters; the JS substring test
  String.prototype.includes is modelled by hasSub.
- The mutable this.analysisReport object is modelled by pure functions,
  one per method of the HARAnalyzer class, assembled by performAnalysis.
- A thrown exception is modelled by Option.none; performAnalysis returns
  none exactly when the source would throw (it dereferences entries[0]
  on an empty entry list, har-analyzer.js line 51).
-/

abbrev Str := List Char

/-- JS s.includes(pat): pat occurs as a contiguous substring of s.
hasSub pat s is true when pat occurs inside s. -/
def hasSub (pat : Str) : Str → Bool
  | [] => pat.isPrefixOf []
  | c :: rest => pat.isPrefixOf (c :: rest) || hasSub pat rest

def mimeHtml : Str := "text/html".toList

def mimeCss : Str := "text/css".toList

def mimeJs : Str := "javascript".toList

def mimeImage : Str := "image/".toList

def mimeFont : Str := "font/".toList

def cssShort : Str := "css".toList

def analyticsStr : Str := "analytics".toList

def trackingStr : Str := "tracking".toList

def dots : Str := "...".toList

/-- One HAR entry, as read by analyzeRequest (har-analyzer.js lines 73-80):
url = entry.request.url, mimeType = entry.response.content.mimeType or
empty, size = entry.response.content.size or 0, time = entry.time,
start = new Date(entry.startedDateTime).getTime(). -/
structure Entry where
  url : Str
  mimeType : Str
  size : Nat
  time : ℚ
  start : ℚ
deriving DecidableEq, Repr

/-- Resource classes assigned by analyzeRequest (lines 83-88). -/
inductive ResourceClass
  | html
  | css
  | js
  | image
  | font
  | other
deriving DecidableEq, Repr

/-- The mimeType substring cascade of analyzeRequest, lines 83-88. -/
def classify (m : Str) : ResourceClass :=
  if hasSub mimeHtml m then .html
  else if hasSub mimeCss m then .css
  else if hasSub mimeJs m then .js
  else if hasSub mimeImage m then .image
  else if hasSub mimeFont m then .font
  else .other

/-- relativeStartTime of analyzeRequest, line 80: the start offset of an
entry relative to the origin passed in by performAnalysis. -/
def relativeStart (startTime : ℚ) (e : Entry) : ℚ := e.start - startTime

/-- The classification step of analyzeRequest viewed per record: resource
class, start offset and end offset of one entry. -/
def classifyEntry (startTime : ℚ) (e : Entry) : ResourceClass × ℚ × ℚ :=
  (classify e.mimeType, relativeStart startTime e, relativeStart startTime e + e.time)

/-- The two bottleneck issue strings of analyzeRequest, lines 99 and 111. -/
inductive Issue
  | slowRequest
  | largeFile
deriving DecidableEq, Repr

/-- Bottleneck record pushed by analyzeRequest (lines 91-113).  The source
displays the byte count through formatBytes; the embedding keeps the raw
byte count in sizeBytes. -/
structure Bottleneck where
  url : Str
  type : ResourceClass
  time : ℚ
  sizeBytes : Nat
  startTime : ℚ
  issue : Issue
deriving DecidableEq, Repr

/-- url.substring(0, 100) plus an ellipsis when the url is longer than 100
characters (lines 94 and 106). -/
def truncUrl (u : Str) : Str :=
  u.take 100 ++ (if 100 < u.length then dots else [])

/-- The bottleneck entries one entry contributes, in push order: the slow
request check (line 91) then the large file check (line 103). -/
def entryBottlenecks (startTime : ℚ) (e : Entry) : List Bottleneck :=
  (if 100 < e.time then
    [⟨truncUrl e.url, classify e.mimeType, e.time, e.size, relativeStart startTime e, .slowRequest⟩]
   else []) ++
  (if 500 * 1024 < e.size then
    [⟨truncUrl e.url, classify e.mimeType, e.time, e.size, relativeStart startTime e, .largeFile⟩]
   else [])

/-- The descending-by-time comparison used by identifyBottlenecks,
line 224: sort((a, b) => b.time - a.time). -/
def bnGe (a b : Bottleneck) : Prop := b.time ≤ a.time

instance : DecidableRel bnGe := fun a b => inferInstanceAs (Decidable (b.time ≤ a.time))

instance : IsTotal Bottleneck bnGe := ⟨fun a b => le_total b.time a.time⟩

instance : IsTrans Bottleneck bnGe := ⟨fun _ _ _ h1 h2 => le_trans h2 h1⟩

/-- identifyBottlenecks, lines 220-225: sort the accumulated bottleneck
list descending by time (a stable comparator sort). -/
def sortBottlenecks (l : List Bottleneck) : List Bottleneck :=
  List.insertionSort bnGe l

/-- Per-class accumulator of analyzeRequest, lines 116-131. -/
structure Stat where
  count : Nat
  totalSize : Nat
  totalTime : ℚ
  avgTime : ℚ
deriving DecidableEq, Repr

/-- The fresh accumulator created at line 117. -/
def stat0 : Stat := ⟨0, 0, 0, 0⟩

/-- Lines 125-130: count++, totalSize += size, totalTime += time,
avgTime = totalTime / count. -/
def updateStat (s : Stat) (size : Nat) (time : ℚ) : Stat :=
  ⟨s.count + 1, s.totalSize + size, s.totalTime + time,
   (s.totalTime + time) / ((s.count + 1 : Nat) : ℚ)⟩

/-- Updating the dict slot of class c, leaving other slots unchanged. -/
def bumpStat (c : ResourceClass) (size : Nat) (time : ℚ) (p : ResourceClass × Stat) :
    ResourceClass × Stat :=
  if p.1 = c then (c, updateStat p.2 size time) else p

/-- The resourceBreakdown dict is modelled as an association list in key
insertion order, matching JS object key order.  A missing key is created
(line 116) and then updated (lines 125-130). -/
def updateBreakdown (bd : List (ResourceClass × Stat)) (c : ResourceClass)
    (size : Nat) (time : ℚ) : List (ResourceClass × Stat) :=
  if bd.any (fun p => decide (p.1 = c)) then bd.map (bumpStat c size time)
  else bd ++ [(c, updateStat stat0 size time)]

/-- The breakdown accumulated by the entries.forEach loop of
performAnalysis (line 56) through analyzeRequest. -/
def buildBreakdown (entries : List Entry) : List (ResourceClass × Stat) :=
  entries.foldl (fun bd e => updateBreakdown bd (classify e.mimeType) e.size e.time) []

/-- JS Math.round: round half toward positive infinity. -/
def jsRound (q : ℚ) : ℤ := ⌊q + 1 / 2⌋

/-- analyzeResourceBreakdown, lines 210-218: every avgTime is replaced by
Math.round(avgTime).  The totalSizeFormatted display string added there is
presentation only and is not modelled. -/
def finalizeBreakdown (bd : List (ResourceClass × Stat)) : List (ResourceClass × Stat) :=
  bd.map (fun p => (p.1, ⟨p.2.count, p.2.totalSize, p.2.totalTime, (jsRound p.2.avgTime : ℚ)⟩))

/-- Sum of the per-class counts of a breakdown. -/
def countSum (bd : List (ResourceClass × Stat)) : Nat :=
  (bd.map (fun p => p.2.count)).sum

/-- One item of the critical path report (lines 140-145 and 161-167).  The
source displays the size through formatBytes; the embedding keeps the raw
byte count. -/
structure CriticalItem where
  type : Str
  url : Str
  time : ℚ
  sizeBytes : Nat
deriving DecidableEq, Repr

def htmlDocStr : Str := "HTML Document".toList

def criticalCssStr : Str := "Critical CSS".toList

def criticalJsStr : Str := "Critical JS".toList

/-- The html test of identifyCriticalPath, lines 135-137: mimeType is
truthy (non-empty) and contains text/html. -/
def isHtmlEntry (e : Entry) : Bool :=
  !e.mimeType.isEmpty && hasSub mimeHtml e.mimeType

/-- The HTML Document item pushed at lines 140-145. -/
def htmlItem (e : Entry) : CriticalItem :=
  ⟨htmlDocStr, e.url.take 80 ++ dots, e.time, e.size⟩

/-- The critical css/js filter of identifyCriticalPath, lines 150-158. -/
def isCriticalResource (e : Entry) : Bool :=
  (hasSub mimeCss e.mimeType || hasSub mimeJs e.mimeType) &&
  !hasSub analyticsStr e.url && !hasSub trackingStr e.url

/-- The item pushed for a critical css/js entry, lines 161-167. -/
def critItem (e : Entry) : CriticalItem :=
  ⟨if hasSub cssShort e.mimeType then criticalCssStr else criticalJsStr,
   e.url.take 80 ++ dots, e.time, e.size⟩

/-- The ascending-by-time comparison of line 159: sort((a, b) => a.time - b.time). -/
def entryTimeLe (a b : Entry) : Prop := a.time ≤ b.time

instance : DecidableRel entryTimeLe := fun a b => inferInstanceAs (Decidable (a.time ≤ b.time))

instance : IsTotal Entry entryTimeLe := ⟨fun a b => le_total a.time b.time⟩

instance : IsTrans Entry entryTimeLe := ⟨fun _ _ _ h1 h2 => le_trans h1 h2⟩

/-- identifyCriticalPath, lines 133-169: the first html entry in input
order (entries.find), then the filtered css/js entries sorted ascending by
time, truncated to the first 5. -/
def identifyCriticalPath (entries : List Entry) : List CriticalItem :=
  (match entries.find? isHtmlEntry with
   | some e => [htmlItem e]
   | none => []) ++
  ((List.insertionSort entryTimeLe (entries.filter isCriticalResource)).take 5).map critItem

/-- One timeline interval built by findPerformanceGaps, lines 174-181.
The source field name end is a Lean keyword; it is called stop here. -/
structure TimelineItem where
  start : ℚ
  stop : ℚ
  url : Str
  time : ℚ
deriving DecidableEq, Repr

/-- The ascending-by-start comparison of line 181: sort((a, b) => a.start - b.start). -/
def tlLe (a b : TimelineItem) : Prop := a.start ≤ b.start

instance : DecidableRel tlLe := fun a b => inferInstanceAs (Decidable (a.start ≤ b.start))

instance : IsTotal TimelineItem tlLe := ⟨fun a b => le_total a.start b.start⟩

instance : IsTrans TimelineItem tlLe := ⟨fun _ _ _ h1 h2 => le_trans h1 h2⟩

/-- The sorted timeline of findPerformanceGaps, lines 174-181. -/
def mkTimeline (startTime : ℚ) (entries : List Entry) : List TimelineItem :=
  List.insertionSort tlLe
    (entries.map (fun e => ⟨e.start - startTime, e.start - startTime + e.time, e.url, e.time⟩))

def criticalMsg : Str := "Critical gap - investigate waterfall".toList

def minorMsg : Str := "Minor optimization opportunity".toList

/-- One emitted timeline gap, lines 188-195. -/
structure Gap where
  gapStart : ℚ
  gapEnd : ℚ
  gapDuration : ℚ
  beforeResource : Str
  afterResource : Str
  suggestion : Str
deriving DecidableEq, Repr

/-- The gap object pushed at lines 188-195 for the adjacent pair
(prev, next) with gap amount d. -/
def mkGap (prev next : TimelineItem) (d : ℚ) : Gap :=
  ⟨prev.stop, next.start, d, prev.url.take 50 ++ dots, next.url.take 50 ++ dots,
   if 200 < d then criticalMsg else minorMsg⟩

/-- The walk over adjacent sorted-timeline pairs, lines 184-197, with prev
the item at index i-1. -/
def gapsAux : TimelineItem → List TimelineItem → List Gap
  | _, [] => []
  | prev, next :: rest =>
      (if 50 < next.start - prev.stop then [mkGap prev next (next.start - prev.stop)] else []) ++
      gapsAux next rest

/-- All timeline gaps emitted by the loop at lines 184-197. -/
def timelineGaps : List TimelineItem → List Gap
  | [] => []
  | x :: xs => gapsAux x xs

/-- An element of this.analysisReport.performanceGaps: either a timeline
gap (lines 188-195) or the synthetic target-exceeded finding pushed into
the same array at lines 200-207. -/
inductive PerfGap
  | timeline (g : Gap)
  | targetExceeded (excess : ℚ)
deriving DecidableEq, Repr

/-- Distinguishes the two constructors of PerfGap. -/
def isTimelineGap : PerfGap → Bool
  | .timeline _ => true
  | .targetExceeded _ => false

/-- this.targetLoadTime, line 21: 2 milliseconds. -/
def targetLoadTime : ℚ := 2

/-- findPerformanceGaps, lines 171-208: the timeline gaps, followed by the
synthetic target-exceeded entry when totalLoadTime exceeds the target. -/
def findPerformanceGaps (entries : List Entry) (startTime totalLoadTime : ℚ) : List PerfGap :=
  (timelineGaps (mkTimeline startTime entries)).map .timeline ++
  (if targetLoadTime < totalLoadTime then [.targetExceeded (totalLoadTime - targetLoadTime)] else [])

/-- One recommendation of generateOptimizationPlan.  The suggestion,
impact and action display strings of the source are presentation only and
are not modelled. -/
structure Optimization where
  priority : Str
  category : Str
deriving DecidableEq, Repr

def optImages : Optimization := ⟨"HIGH".toList, "Images".toList⟩

def optFileSize : Optimization := ⟨"HIGH".toList, "File Size".toList⟩

def optNetwork : Optimization := ⟨"MEDIUM".toList, "Network".toList⟩

def optLoadingStrategy : Optimization := ⟨"MEDIUM".toList, "Loading Strategy".toList⟩

def optOverall : Optimization := ⟨"CRITICAL".toList, "Overall Performance".toList⟩

/-- generateOptimizationPlan, lines 227-291: five independent rules, each
testing the presence of a finding kind, pushed in source order. -/
def generateOptimizationPlan (bns : List Bottleneck) (gaps : List PerfGap) (total : ℚ) :
    List Optimization :=
  (if bns.any (fun b => decide (b.type = .image)) then [optImages] else []) ++
  (if bns.any (fun b => decide (b.issue = .largeFile)) then [optFileSize] else []) ++
  (if bns.any (fun b => decide (b.issue = .slowRequest)) then [optNetwork] else []) ++
  (if 0 < gaps.length then [optLoadingStrategy] else []) ++
  (if targetLoadTime < total then [optOverall] else [])

/-- endAbs e is the absolute end timestamp start + time used at line 52. -/
def endAbs (e : Entry) : ℚ := e.start + e.time

/-- Math.max over the absolute end timestamps of a non-empty entry list,
line 52. -/
def maxEndAbs (e0 : Entry) (rest : List Entry) : ℚ :=
  rest.foldl (fun m e => max m (endAbs e)) (endAbs e0)

/-- Modelled from the claim wording of C1: the minimum start timestamp
across the whole record set.  The source never computes this value; it is
declared only to compare the source behaviour against the claim. -/
def specMinStart (e0 : Entry) (rest : List Entry) : ℚ :=
  rest.foldl (fun m e => min m e.start) e0.start

/-- The assembled analysis report (the fields of this.analysisReport that
the analysis ever writes; largestContentfulPaint, firstContentfulPaint and
timeToInteractive are initialized at lines 13-15 and never updated, and
are omitted). -/
structure Report where
  totalLoadTime : ℚ
  criticalPathItems : List CriticalItem
  performanceGaps : List PerfGap
  resourceBreakdown : List (ResourceClass × Stat)
  bottlenecks : List Bottleneck
  optimizations : List Optimization
deriving DecidableEq, Repr

/-- performAnalysis (lines 45-71) followed by generateOptimizationPlan, as
run by analyzeHARFile.  On an empty entry list the source evaluates
entries[0].startedDateTime (line 51), which throws; this is modelled by
none.  The time origin startTime is the start timestamp of the FIRST
entry in input order (line 51). -/
def performAnalysis : List Entry → Option Report
  | [] => none
  | e0 :: rest =>
      let entries := e0 :: rest
      let startTime := e0.start
      let total := maxEndAbs e0 rest - startTime
      let bns := sortBottlenecks (entries.flatMap (entryBottlenecks startTime))
      let gaps := findPerformanceGaps entries startTime total
      some ⟨total, identifyCriticalPath entries, gaps,
            finalizeBreakdown (buildBreakdown entries), bns,
            generateOptimizationPlan bns gaps total⟩

def bytesUnit : Str := "Bytes".toList

def kbUnit : Str := "KB".toList

def mbUnit : Str := "MB".toList

def gbUnit : Str := "GB".toList

/-- The unit array of formatBytes, line 389. -/
def sizes : List Str := [bytesUnit, kbUnit, mbUnit, gbUnit]

/-- The unit selected by formatBytes (lines 386-392).  The index
Math.floor(Math.log(bytes) / Math.log(1024)) is the mathematical floor of
the base-1024 logarithm, i.e. Nat.log 1024 bytes; sizes[i] on an out of
range index is undefined in JS and modelled by none.  The numeric part
(bytes / 1024 ** i).toFixed(2) is presentation only and is not
modelled. -/
def formatBytesUnit (bytes : Nat) : Option Str :=
  if bytes = 0 then some bytesUnit
  else sizes[Nat.log 1024 bytes]?

/-- Invariant of every slot of the running breakdown: positive count and
exact average. -/
def StatOk (p : ResourceClass × Stat) : Prop :=
  1 ≤ p.2.count ∧ p.2.avgTime = p.2.totalTime / ((p.2.count : Nat) : ℚ)

/-- Ascending-by-time comparison on critical path items. -/
def ciLe (a b : CriticalItem) : Prop := a.time ≤ b.time

/-- Concrete trace for C1: the first entry in input order starts at 100,
a later entry starts at 0, both lasting 10. -/
def exA : Entry := ⟨"a".toList, "text/plain".toList, 0, 10, 100⟩

def exB : Entry := ⟨"b".toList, "text/plain".toList, 0, 10, 0⟩

/-- Concrete one-entry trace used by several witnesses. -/
def wEntry : Entry := ⟨"w".toList, "text/html".toList, 0, 10, 5⟩

/-- The report the analyzer produces on [wEntry]. -/
def wReport : Report :=
  ⟨10, [⟨htmlDocStr, "w...".toList, 10, 0⟩], [.targetExceeded 8],
   [(.html, ⟨1, 0, 10, 10⟩)], [], [optLoadingStrategy, optOverall]⟩

/-- Concrete entries realizing scenario B of the spec: first interval ends
at 100, second starts at 400. -/
def gapEntryP : Entry := ⟨"p".toList, "text/plain".toList, 0, 100, 0⟩

def gapEntryQ : Entry := ⟨"q".toList, "text/plain".toList, 0, 50, 400⟩

/-- The single gap the analyzer emits on that trace. -/
def gapB : Gap := mkGap ⟨0, 100, "p".toList, 100⟩ ⟨400, 450, "q".toList, 50⟩ 300

/-- Concrete entry realizing scenario C of the spec: 150 ms and 600 KiB,
exceeding both bottleneck thresholds. -/
def cEntry : Entry := ⟨"c".toList, "text/css".toList, 600 * 1024, 150, 0⟩

/-- The report the analyzer produces on [cEntry]. -/
def cReport : Report :=
  ⟨150, [⟨criticalCssStr, "c...".toList, 150, 614400⟩], [.targetExceeded 148],
   [(.css, ⟨1, 614400, 150, 150⟩)],
   [⟨"c".toList, .css, 150, 614400, 0, .slowRequest⟩,
    ⟨"c".toList, .css, 150, 614400, 0, .largeFile⟩],
   [optFileSize, optNetwork, optLoadingStrategy, optOverall]⟩

/-- Two html entries for C5: the first in input order starts at 100, the
second starts at 0 and therefore has the smaller start offset. -/
def hEntryA : Entry := ⟨"a".toList, "text/html".toList, 1, 1, 100⟩

def hEntryB : Entry := ⟨"b".toList, "text/html".toList, 1, 1, 0⟩

/-- One-entry trace for C6 with no timeline gap and a total load time of
10 ms, which exceeds the 2 ms target. -/
def pEntry : Entry := ⟨"u".toList, "text/plain".toList, 10, 10, 0⟩

/-- The report the analyzer produces on [pEntry]: the only element of
performanceGaps is the synthetic target-exceeded finding, yet the Loading
Strategy recommendation is emitted. -/
def pReport : Report :=
  ⟨10, [], [.targetExceeded 8], [(.other, ⟨1, 10, 10, 10⟩)], [],
   [optLoadingStrategy, optOverall]⟩

/-- Two html entries with durations 1 and 2 for C9: the exact average is
3/2 but the analyzer stores Math.round(3/2) = 2. -/
def qEntryA : Entry := ⟨"h".toList, "text/html".toList, 0, 1, 0⟩

def qEntryB : Entry := ⟨"i".toList, "text/html".toList, 0, 2, 0⟩

/-- The report the analyzer produces on [qEntryA, qEntryB]. -/
def qReport : Report :=
  ⟨2, [⟨htmlDocStr, "h...".toList, 1, 0⟩], [], [(.html, ⟨2, 0, 3, 2⟩)], [], []⟩

/-! General helper lemmas. -/

theorem mem_ite_singleton {α : Type} {c : Prop} [Decidable c] {a b : α} :
    a ∈ (if c then [b] else []) ↔ c ∧ a = b := by
  by_cases h : c <;> simp [h]

theorem le_foldl_max {α : Type} (f : α → ℚ) :
    ∀ (l : List α) (a : ℚ), a ≤ l.foldl (fun m e => max m (f e)) a
  | [], _ => le_refl _
  | x :: xs, a => le_trans (le_max_left a (f x)) (le_foldl_max f xs (max a (f x)))

theorem foldl_max_of_mem {α : Type} (f : α → ℚ) :
    ∀ (l : List α) (a : ℚ) (x : α), x ∈ l → f x ≤ l.foldl (fun m e => max m (f e)) a := by
  intro l
  induction l with
  | nil => intro a x hx; cases hx
  | cons y ys ih =>
      intro a x hx
      rcases List.mem_cons.mp hx with rfl | h
      · exact le_trans (le_max_right a (f x)) (le_foldl_max f ys _)
      · exact ih _ _ h

theorem foldl_max_attained {α : Type} (f : α → ℚ) :
    ∀ (l : List α) (a : ℚ),
      l.foldl (fun m e => max m (f e)) a = a ∨
      ∃ x ∈ l, l.foldl (fun m e => max m (f e)) a = f x := by
  intro l
  induction l with
  | nil => intro a; exact Or.inl rfl
  | cons y ys ih =>
      intro a
      rcases ih (max a (f y)) with h | ⟨x, hx, heq⟩
      · rcases max_choice a (f y) with hm | hm
        · exact Or.inl (by rw [List.foldl_cons]; rw [h, hm])
        · refine Or.inr ⟨y, List.mem_cons_self _ _, ?_⟩
          rw [List.foldl_cons]
          rw [h, hm]
      · refine Or.inr ⟨x, List.mem_cons_of_mem _ hx, ?_⟩
        rw [List.foldl_cons]
        exact heq

theorem foldl_min_of_forall {α : Type} (f : α → ℚ) :
    ∀ (l : List α) (a : ℚ), (∀ x ∈ l, a ≤ f x) →
      l.foldl (fun m e => min m (f e)) a = a := by
  intro l
  induction l with
  | nil => intro a _; rfl
  | cons y ys ih =>
      intro a h
      rw [List.foldl_cons]
      rw [min_eq_left (h y (List.mem_cons_self y ys))]
      exact ih a (fun x hx => h x (List.mem_cons_of_mem _ hx))

/-! Lemmas about the gap walk. -/

theorem mem_gapsAux {g : Gap} :
    ∀ {l : List TimelineItem} {prev : TimelineItem}, g ∈ gapsAux prev l →
      50 < g.gapDuration ∧
      g.suggestion = (if 200 < g.gapDuration then criticalMsg else minorMsg) := by
  intro l
  induction l with
  | nil => intro prev h; simp [gapsAux] at h
  | cons next rest ih =>
      intro prev h
      simp only [gapsAux] at h
      rcases List.mem_append.mp h with h1 | h1
      · rcases mem_ite_singleton.mp h1 with ⟨hc, rfl⟩
        exact ⟨by simpa [mkGap] using hc, by simp [mkGap]⟩
      · exact ih h1

theorem gapsAux_eq_pairs :
    ∀ (l : List TimelineItem) (prev : TimelineItem),
      gapsAux prev l = ((prev :: l).zip l).flatMap
        (fun p => if 50 < p.2.start - p.1.stop then [mkGap p.1 p.2 (p.2.start - p.1.stop)] else []) := by
  intro l
  induction l with
  | nil => intro prev; rfl
  | cons next rest ih =>
      intro prev
      simp only [gapsAux, List.zip_cons_cons, List.flatMap_cons, ih next]

theorem timelineGaps_eq_pairs (tl : List TimelineItem) :
    timelineGaps tl = (tl.zip tl.tail).flatMap
      (fun p => if 50 < p.2.start - p.1.stop then [mkGap p.1 p.2 (p.2.start - p.1.stop)] else []) := by
  cases tl with
  | nil => rfl
  | cons x xs => simpa [timelineGaps] using gapsAux_eq_pairs xs x

/-! Lemmas about the breakdown dict. -/

theorem any_key_iff (bd : List (ResourceClass × Stat)) (c : ResourceClass) :
    bd.any (fun p => decide (p.1 = c)) = true ↔ c ∈ bd.map Prod.fst := by
  rw [List.any_eq_true]
  constructor
  · rintro ⟨p, hp, hpc⟩
    rw [decide_eq_true_eq] at hpc
    exact List.mem_map.mpr ⟨p, hp, hpc⟩
  · intro hc
    rcases List.mem_map.mp hc with ⟨p, hp, hpc⟩
    refine ⟨p, hp, ?_⟩
    rw [decide_eq_true_eq]
    exact hpc

theorem keys_map_bump (bd : List (ResourceClass × Stat)) (c : ResourceClass) (s : Nat) (t : ℚ) :
    (bd.map (bumpStat c s t)).map Prod.fst = bd.map Prod.fst := by
  induction bd with
  | nil => rfl
  | cons p rest ih =>
      simp only [List.map_cons, ih]
      congr 1
      by_cases h : p.1 = c <;> simp [bumpStat, h]

theorem map_bump_of_not_mem {bd : List (ResourceClass × Stat)} {c : ResourceClass} (s : Nat) (t : ℚ)
    (h : c ∉ bd.map Prod.fst) : bd.map (bumpStat c s t) = bd := by
  induction bd with
  | nil => rfl
  | cons p rest ih =>
      simp only [List.map_cons, List.mem_cons, not_or] at h
      simp only [List.map_cons, ih h.2]
      have hp : p.1 ≠ c := fun hc => h.1 hc.symm
      simp [bumpStat, hp]

theorem countSum_cons (p : ResourceClass × Stat) (rest : List (ResourceClass × Stat)) :
    countSum (p :: rest) = p.2.count + countSum rest := by
  simp [countSum]

theorem countSum_map_bump (c : ResourceClass) (s : Nat) (t : ℚ) :
    ∀ (bd : List (ResourceClass × Stat)), (bd.map Prod.fst).Nodup → c ∈ bd.map Prod.fst →
      countSum (bd.map (bumpStat c s t)) = countSum bd + 1 := by
  intro bd
  induction bd with
  | nil => intro _ h; cases h
  | cons p rest ih =>
      intro hnd hmem
      rw [List.map_cons, List.nodup_cons] at hnd
      by_cases h : p.1 = c
      · subst h
        rw [List.map_cons, map_bump_of_not_mem s t hnd.1, countSum_cons, countSum_cons]
        have : (bumpStat p.1 s t p).2.count = p.2.count + 1 := by
          simp [bumpStat, updateStat]
        omega
      · have hmem2 : c ∈ rest.map Prod.fst := by
          rw [List.map_cons] at hmem
          rcases List.mem_cons.mp hmem with h1 | h1
          · exact absurd h1.symm h
          · exact h1
        have hbp : bumpStat c s t p = p := by simp [bumpStat, h]
        rw [List.map_cons, hbp, countSum_cons, countSum_cons, ih hnd.2 hmem2]
        omega

theorem updateBreakdown_keys (bd : List (ResourceClass × Stat)) (c : ResourceClass)
    (s : Nat) (t : ℚ) (x : ResourceClass) :
    x ∈ (updateBreakdown bd c s t).map Prod.fst ↔ x ∈ bd.map Prod.fst ∨ x = c := by
  unfold updateBreakdown
  cases hb : bd.any (fun p => decide (p.1 = c)) with
  | true =>
      have hc := (any_key_iff bd c).mp hb
      rw [if_pos rfl]
      rw [keys_map_bump]
      constructor
      · exact Or.inl
      · rintro (hx | rfl)
        · exact hx
        · exact hc
  | false =>
      rw [if_neg Bool.false_ne_true]
      rw [List.map_append, List.mem_append]
      simp

theorem updateBreakdown_nodup (bd : List (ResourceClass × Stat)) (c : ResourceClass)
    (s : Nat) (t : ℚ) (h : (bd.map Prod.fst).Nodup) :
    ((updateBreakdown bd c s t).map Prod.fst).Nodup := by
  unfold updateBreakdown
  cases hb : bd.any (fun p => decide (p.1 = c)) with
  | true =>
      rw [if_pos rfl]
      rw [keys_map_bump]
      exact h
  | false =>
      rw [if_neg Bool.false_ne_true]
      rw [List.map_append]
      have hcn : c ∉ bd.map Prod.fst := by
        intro hm
        rw [(any_key_iff bd c).mpr hm] at hb
        cases hb
      refine List.Nodup.append h (by simp) ?_
      intro a ha hb2
      rw [show (List.map Prod.fst [(c, updateStat stat0 s t)]) = [c] from rfl] at hb2
      rcases List.mem_cons.mp hb2 with rfl | hb3
      · exact hcn ha
      · cases hb3

theorem updateBreakdown_countSum (bd : List (ResourceClass × Stat)) (c : ResourceClass)
    (s : Nat) (t : ℚ) (h : (bd.map Prod.fst).Nodup) :
    countSum (updateBreakdown bd c s t) = countSum bd + 1 := by
  unfold updateBreakdown
  cases hb : bd.any (fun p => decide (p.1 = c)) with
  | true =>
      rw [if_pos rfl]
      exact countSum_map_bump c s t bd h ((any_key_iff bd c).mp hb)
  | false =>
      rw [if_neg Bool.false_ne_true]
      simp [countSum, List.map_append, updateStat, stat0]

theorem updateBreakdown_statOk (bd : List (ResourceClass × Stat)) (c : ResourceClass)
    (s : Nat) (t : ℚ) (h : ∀ p ∈ bd, StatOk p) :
    ∀ p ∈ updateBreakdown bd c s t, StatOk p := by
  intro p hp
  unfold updateBreakdown at hp
  cases hb : bd.any (fun q => decide (q.1 = c)) with
  | true =>
      rw [hb, if_pos rfl] at hp
      rcases List.mem_map.mp hp with ⟨q, hq, rfl⟩
      by_cases hqc : q.1 = c
      · refine ⟨?_, ?_⟩ <;> simp [bumpStat, hqc, updateStat, StatOk]
      · have : bumpStat c s t q = q := by simp [bumpStat, hqc]
        rw [this]
        exact h q hq
  | false =>
      rw [hb, if_neg Bool.false_ne_true] at hp
      rcases List.mem_append.mp hp with hp1 | hp1
      · exact h p hp1
      · rcases List.mem_cons.mp hp1 with rfl | hp2
        · exact ⟨by simp [updateStat, stat0], by simp [updateStat, stat0, StatOk]⟩
        · cases hp2

theorem buildBreakdown_aux :
    ∀ (entries : List Entry) (bd : List (ResourceClass × Stat)),
      (bd.map Prod.fst).Nodup → (∀ p ∈ bd, StatOk p) →
      ((entries.foldl (fun b e => updateBreakdown b (classify e.mimeType) e.size e.time) bd).map
          Prod.fst).Nodup ∧
      (∀ p ∈ entries.foldl (fun b e => updateBreakdown b (classify e.mimeType) e.size e.time) bd,
        StatOk p) ∧
      countSum (entries.foldl (fun b e => updateBreakdown b (classify e.mimeType) e.size e.time) bd) =
        countSum bd + entries.length ∧
      (∀ c, c ∈ (entries.foldl
            (fun b e => updateBreakdown b (classify e.mimeType) e.size e.time) bd).map Prod.fst ↔
        c ∈ bd.map Prod.fst ∨ ∃ e ∈ entries, classify e.mimeType = c) := by
  intro entries
  induction entries with
  | nil =>
      intro bd h1 h2
      exact ⟨h1, h2, by simp, by simp⟩
  | cons e rest ih =>
      intro bd h1 h2
      have h1u := updateBreakdown_nodup bd (classify e.mimeType) e.size e.time h1
      have h2u := updateBreakdown_statOk bd (classify e.mimeType) e.size e.time h2
      obtain ⟨a1, a2, a3, a4⟩ := ih (updateBreakdown bd (classify e.mimeType) e.size e.time) h1u h2u
      refine ⟨by simpa using a1, by simpa using a2, ?_, ?_⟩
      · rw [List.foldl_cons, a3, updateBreakdown_countSum bd (classify e.mimeType) e.size e.time h1]
        simp [Nat.add_assoc, Nat.add_comm 1 rest.length]
      · intro c
        rw [List.foldl_cons, a4 c, updateBreakdown_keys]
        rw [List.exists_mem_cons_iff]
        constructor
        · rintro ((hx | rfl) | hx)
          · exact Or.inl hx
          · exact Or.inr (Or.inl rfl)
          · exact Or.inr (Or.inr hx)
        · rintro (hx | hx | hx)
          · exact Or.inl (Or.inl hx)
          · exact Or.inl (Or.inr hx.symm)
          · exact Or.inr hx

theorem buildBreakdown_spec (entries : List Entry) :
    ((buildBreakdown entries).map Prod.fst).Nodup ∧
    (∀ p ∈ buildBreakdown entries, StatOk p) ∧
    countSum (buildBreakdown entries) = entries.length ∧
    (∀ c, c ∈ (buildBreakdown entries).map Prod.fst ↔ ∃ e ∈ entries, classify e.mimeType = c) := by
  obtain ⟨a1, a2, a3, a4⟩ := buildBreakdown_aux entries [] (by simp) (by simp)
  refine ⟨a1, a2, ?_, ?_⟩
  · rw [show buildBreakdown entries =
      entries.foldl (fun b e => updateBreakdown b (classify e.mimeType) e.size e.time) [] from rfl,
      a3]
    simp [countSum]
  · intro c
    rw [show buildBreakdown entries =
      entries.foldl (fun b e => updateBreakdown b (classify e.mimeType) e.size e.time) [] from rfl,
      a4 c]
    simp

theorem finalize_keys (bd : List (ResourceClass × Stat)) :
    (finalizeBreakdown bd).map Prod.fst = bd.map Prod.fst := by
  simp [finalizeBreakdown, List.map_map, Function.comp]

theorem finalize_countSum (bd : List (ResourceClass × Stat)) :
    countSum (finalizeBreakdown bd) = countSum bd := by
  simp only [finalizeBreakdown, countSum, List.map_map]
  congr 1

theorem mem_finalize {p : ResourceClass × Stat} {bd : List (ResourceClass × Stat)} :
    p ∈ finalizeBreakdown bd ↔
      ∃ q ∈ bd, p = (q.1, ⟨q.2.count, q.2.totalSize, q.2.totalTime, (jsRound q.2.avgTime : ℚ)⟩) := by
  unfold finalizeBreakdown
  rw [List.mem_map]
  constructor
  · rintro ⟨q, hq, rfl⟩; exact ⟨q, hq, rfl⟩
  · rintro ⟨q, hq, rfl⟩; exact ⟨q, hq, rfl⟩

/-- Unfolding equation of performAnalysis on a non-empty entry list. -/
theorem performAnalysis_cons (e0 : Entry) (rest : List Entry) :
    performAnalysis (e0 :: rest) =
      some ⟨maxEndAbs e0 rest - e0.start,
            identifyCriticalPath (e0 :: rest),
            findPerformanceGaps (e0 :: rest) e0.start (maxEndAbs e0 rest - e0.start),
            finalizeBreakdown (buildBreakdown (e0 :: rest)),
            sortBottlenecks ((e0 :: rest).flatMap (entryBottlenecks e0.start)),
            generateOptimizationPlan
              (sortBottlenecks ((e0 :: rest).flatMap (entryBottlenecks e0.start)))
              (findPerformanceGaps (e0 :: rest) e0.start (maxEndAbs e0 rest - e0.start))
              (maxEndAbs e0 rest - e0.start)⟩ := rfl

/-! Concrete evaluations of the analyzer, used by witnesses and
counterexamples. -/

theorem performAnalysis_wEntry : performAnalysis [wEntry] = some wReport := by
  norm_num +decide [performAnalysis, wEntry, wReport, maxEndAbs, endAbs, sortBottlenecks,
    entryBottlenecks, findPerformanceGaps, mkTimeline, timelineGaps, gapsAux, mkGap,
    targetLoadTime, identifyCriticalPath, isHtmlEntry, isCriticalResource, critItem, htmlItem,
    hasSub, List.isPrefixOf, mimeHtml, mimeCss, mimeJs, mimeImage, mimeFont, cssShort,
    analyticsStr, trackingStr, dots, classify, buildBreakdown, updateBreakdown, bumpStat,
    updateStat, stat0, finalizeBreakdown, jsRound, generateOptimizationPlan,
    List.insertionSort, List.orderedInsert, relativeStart, truncUrl, Int.floor_eq_iff,
    List.find?, criticalMsg, minorMsg, htmlDocStr, criticalCssStr, criticalJsStr,
    optImages, optFileSize, optNetwork, optLoadingStrategy, optOverall, tlLe, bnGe, entryTimeLe]

theorem performAnalysis_cEntry : performAnalysis [cEntry] = some cReport := by
  norm_num +decide [performAnalysis, cEntry, cReport, maxEndAbs, endAbs, sortBottlenecks,
    entryBottlenecks, findPerformanceGaps, mkTimeline, timelineGaps, gapsAux, mkGap,
    targetLoadTime, identifyCriticalPath, isHtmlEntry, isCriticalResource, critItem, htmlItem,
    hasSub, List.isPrefixOf, mimeHtml, mimeCss, mimeJs, mimeImage, mimeFont, cssShort,
    analyticsStr, trackingStr, dots, classify, buildBreakdown, updateBreakdown, bumpStat,
    updateStat, stat0, finalizeBreakdown, jsRound, generateOptimizationPlan,
    List.insertionSort, List.orderedInsert, relativeStart, truncUrl, Int.floor_eq_iff,
    List.find?, criticalMsg, minorMsg, htmlDocStr, criticalCssStr, criticalJsStr,
    optImages, optFileSize, optNetwork, optLoadingStrategy, optOverall, tlLe, bnGe, entryTimeLe]

theorem performAnalysis_pEntry : performAnalysis [pEntry] = some pReport := by
  norm_num +decide [performAnalysis, pEntry, pReport, maxEndAbs, endAbs, sortBottlenecks,
    entryBottlenecks, findPerformanceGaps, mkTimeline, timelineGaps, gapsAux, mkGap,
    targetLoadTime, identifyCriticalPath, isHtmlEntry, isCriticalResource, critItem, htmlItem,
    hasSub, List.isPrefixOf, mimeHtml, mimeCss, mimeJs, mimeImage, mimeFont, cssShort,
    analyticsStr, trackingStr, dots, classify, buildBreakdown, updateBreakdown, bumpStat,
    updateStat, stat0, finalizeBreakdown, jsRound, generateOptimizationPlan,
    List.insertionSort, List.orderedInsert, relativeStart, truncUrl, Int.floor_eq_iff,
    List.find?, criticalMsg, minorMsg, htmlDocStr, criticalCssStr, criticalJsStr,
    optImages, optFileSize, optNetwork, optLoadingStrategy, optOverall, tlLe, bnGe, entryTimeLe]

theorem performAnalysis_qEntries : performAnalysis [qEntryA, qEntryB] = some qReport := by
  norm_num +decide [performAnalysis, qEntryA, qEntryB, qReport, maxEndAbs, endAbs,
    sortBottlenecks, entryBottlenecks, findPerformanceGaps, mkTimeline, timelineGaps, gapsAux,
    mkGap, targetLoadTime, identifyCriticalPath, isHtmlEntry, isCriticalResource, critItem,
    htmlItem, hasSub, List.isPrefixOf, mimeHtml, mimeCss, mimeJs, mimeImage, mimeFont, cssShort,
    analyticsStr, trackingStr, dots, classify, buildBreakdown, updateBreakdown, bumpStat,
    updateStat, stat0, finalizeBreakdown, jsRound, generateOptimizationPlan,
    List.insertionSort, List.orderedInsert, relativeStart, truncUrl, Int.floor_eq_iff,
    List.find?, criticalMsg, minorMsg, htmlDocStr, criticalCssStr, criticalJsStr,
    optImages, optFileSize, optNetwork, optLoadingStrategy, optOverall, tlLe, bnGe, entryTimeLe]

/-! Claim C1. -/

/-- C1 counterexample: on the trace [exA, exB] the first entry in input
order starts at 100 while a later entry starts at 0.  The report stores
totalLoadTime 10, but max(endOffsetMs) - min(startOffsetMs) is 110, and
the offset the code assigns to exB is -100, not the value 0 relative to
the minimum start timestamp.  So totalLoadTimeMs is not max - min and the
offsets are not relative to the minimum start. -/
theorem C1_counterexample :
    (performAnalysis [exA, exB]).map Report.totalLoadTime = some 10 ∧
    maxEndAbs exA [exB] - specMinStart exA [exB] = 110 ∧
    ((10 : ℚ) ≠ 110) ∧
    relativeStart exA.start exB = -100 ∧
    exB.start - specMinStart exA [exB] = 0 ∧
    ((-100 : ℚ) ≠ 0) := by
  refine ⟨?_, ?_, by norm_num, ?_, ?_, by norm_num⟩
  · norm_num +decide [performAnalysis, exA, exB, maxEndAbs, endAbs, sortBottlenecks,
      entryBottlenecks, findPerformanceGaps, mkTimeline, timelineGaps, gapsAux, mkGap,
      targetLoadTime, identifyCriticalPath, isHtmlEntry, isCriticalResource, critItem, htmlItem,
      hasSub, List.isPrefixOf, mimeHtml, mimeCss, mimeJs, mimeImage, mimeFont, cssShort,
      analyticsStr, trackingStr, dots, classify, buildBreakdown, updateBreakdown, bumpStat,
      updateStat, stat0, finalizeBreakdown, jsRound, generateOptimizationPlan,
      List.insertionSort, List.orderedInsert, relativeStart, truncUrl, Int.floor_eq_iff,
      List.find?, criticalMsg, minorMsg, tlLe, bnGe, entryTimeLe]
  · norm_num [maxEndAbs, endAbs, specMinStart, exA, exB]
  · norm_num [relativeStart, exA, exB]
  · norm_num [specMinStart, exA, exB]

/-- C1 (amended): the time origin of the analysis is the start timestamp
of the FIRST entry in input order, not the minimum start timestamp.  The
report totalLoadTime is exactly the maximum end offset relative to that
first-entry origin, every record offset is start minus the first entry
start, and only when the first entry attains the minimal start timestamp
does totalLoadTime equal max(endOffsetMs) - min(startOffsetMs). -/
theorem C1_total_load_time (e0 : Entry) (rest : List Entry) (r : Report)
    (h : performAnalysis (e0 :: rest) = some r) :
    (∀ e ∈ e0 :: rest, endAbs e - e0.start ≤ r.totalLoadTime) ∧
    (∃ e ∈ e0 :: rest, endAbs e - e0.start = r.totalLoadTime) ∧
    (∀ e ∈ e0 :: rest, relativeStart e0.start e = e.start - e0.start) ∧
    ((∀ e ∈ rest, e0.start ≤ e.start) →
      r.totalLoadTime = maxEndAbs e0 rest - specMinStart e0 rest) := by
  rw [performAnalysis_cons] at h
  injection h with h
  subst h
  refine ⟨?_, ?_, fun e _ => rfl, ?_⟩
  · intro e he
    have hb : endAbs e ≤ maxEndAbs e0 rest := by
      rcases List.mem_cons.mp he with rfl | he2
      · exact le_foldl_max endAbs rest (endAbs e)
      · exact foldl_max_of_mem endAbs rest (endAbs e0) e he2
    exact sub_le_sub_right hb e0.start
  · rcases foldl_max_attained endAbs rest (endAbs e0) with hh | ⟨x, hx, hh⟩
    · refine ⟨e0, List.mem_cons_self _ _, ?_⟩
      show endAbs e0 - e0.start = maxEndAbs e0 rest - e0.start
      rw [show maxEndAbs e0 rest = endAbs e0 from hh]
    · refine ⟨x, List.mem_cons_of_mem _ hx, ?_⟩
      show endAbs x - e0.start = maxEndAbs e0 rest - e0.start
      rw [show maxEndAbs e0 rest = endAbs x from hh]
  · intro hmin
    have hm : specMinStart e0 rest = e0.start := by
      unfold specMinStart
      exact foldl_min_of_forall (fun e => e.start) rest e0.start hmin
    show maxEndAbs e0 rest - e0.start = maxEndAbs e0 rest - specMinStart e0 rest
    rw [hm]

/-- C1 witness: the amended statement evaluated on the one-entry trace
[wEntry], whose first entry trivially attains the minimal start. -/
theorem C1_witness :
    wReport.totalLoadTime = maxEndAbs wEntry [] - specMinStart wEntry [] :=
  (C1_total_load_time wEntry [] wReport performAnalysis_wEntry).2.2.2
    (by intro e he; cases he)

/-! Claim C2. -/

/-- C2 counterexample: on the empty entry list the analysis does not
produce a Report at all; the source throws while reading entries[0]
(modelled by none), so no Report with totalLoadTimeMs = 0 exists. -/
theorem C2_counterexample : performAnalysis ([] : List Entry) = none := rfl

/-- C2 (amended): the analysis raises an error exactly on the empty entry
list (the source dereferences entries[0] at line 51); every non-empty
trace produces a Report. -/
theorem C2_empty_trace_raises (entries : List Entry) :
    performAnalysis entries = none ↔ entries = [] := by
  cases entries with
  | nil => simp [performAnalysis]
  | cons e0 rest =>
      rw [performAnalysis_cons]
      simp

/-- C2 witness: the amended statement applied to the empty list. -/
theorem C2_witness : performAnalysis ([] : List Entry) = none :=
  (C2_empty_trace_raises []).mpr rfl

/-! Claim C3. -/

/-- C3: gap detection sorts the timeline ascending by start offset, emits
a Gap for an adjacent pair exactly when next.start - previous.end exceeds
50 ms, and an emitted Gap carries the Critical suggestion exactly when its
duration exceeds 200 ms and the Minor suggestion otherwise; in particular
every emitted Gap has duration above 50 ms. -/
theorem C3_gap_detection (entries : List Entry) (startTime : ℚ) :
    List.Sorted tlLe (mkTimeline startTime entries) ∧
    timelineGaps (mkTimeline startTime entries) =
      ((mkTimeline startTime entries).zip (mkTimeline startTime entries).tail).flatMap
        (fun p => if 50 < p.2.start - p.1.stop then [mkGap p.1 p.2 (p.2.start - p.1.stop)]
          else []) ∧
    ∀ g ∈ timelineGaps (mkTimeline startTime entries),
      50 < g.gapDuration ∧ (g.suggestion = criticalMsg ↔ 200 < g.gapDuration) ∧
      (g.suggestion = minorMsg ↔ g.gapDuration ≤ 200) := by
  refine ⟨List.sorted_insertionSort tlLe _, timelineGaps_eq_pairs _, ?_⟩
  intro g hg
  have hm : 50 < g.gapDuration ∧
      g.suggestion = (if 200 < g.gapDuration then criticalMsg else minorMsg) := by
    cases htl : mkTimeline startTime entries with
    | nil => rw [htl] at hg; simp [timelineGaps] at hg
    | cons x xs =>
        rw [htl] at hg
        exact mem_gapsAux hg
  have hne : criticalMsg ≠ minorMsg := by decide
  refine ⟨hm.1, ?_, ?_⟩
  · by_cases h2 : 200 < g.gapDuration
    · rw [hm.2, if_pos h2]
      simp [h2]
    · rw [hm.2, if_neg h2]
      simp [Ne.symm hne, h2]
  · by_cases h2 : 200 < g.gapDuration
    · rw [hm.2, if_pos h2]
      simp [hne, not_le.mpr h2]
    · rw [hm.2, if_neg h2]
      simp [not_lt.mp h2]

/-- C3 witness: the 300 ms Critical gap emitted between the two concrete
entries of scenario B. -/
theorem C3_witness :
    50 < gapB.gapDuration ∧ (gapB.suggestion = criticalMsg ↔ 200 < gapB.gapDuration) ∧
    (gapB.suggestion = minorMsg ↔ gapB.gapDuration ≤ 200) :=
  (C3_gap_detection [gapEntryP, gapEntryQ] 0).2.2 gapB (by
    norm_num +decide [mkTimeline, timelineGaps, gapsAux, mkGap, gapB, gapEntryP, gapEntryQ,
      List.insertionSort, List.orderedInsert, tlLe, dots])

/-! Claim C4. -/

/-- C4: the report bottleneck list is sorted non-increasing by time, every
entry was produced by the slow-request rule (time above 100 ms) or the
large-file rule (more than 500 KiB), and an entry exceeding both
thresholds contributes exactly two bottleneck records, one per issue kind,
in that order. -/
theorem C4_bottlenecks (entries : List Entry) (r : Report)
    (h : performAnalysis entries = some r) :
    List.Sorted bnGe r.bottlenecks ∧
    (∀ b ∈ r.bottlenecks,
      (b.issue = .slowRequest ∧ 100 < b.time) ∨
      (b.issue = .largeFile ∧ 500 * 1024 < b.sizeBytes)) ∧
    ∀ (st : ℚ) (e : Entry), 100 < e.time → 500 * 1024 < e.size →
      (entryBottlenecks st e).map Bottleneck.issue = [.slowRequest, .largeFile] := by
  cases entries with
  | nil => cases h
  | cons e0 rest =>
      rw [performAnalysis_cons] at h
      injection h with h
      subst h
      refine ⟨List.sorted_insertionSort bnGe _, ?_, ?_⟩
      · intro b hb
        have hb2 : b ∈ (e0 :: rest).flatMap (entryBottlenecks e0.start) :=
          ((List.perm_insertionSort bnGe _).mem_iff).mp hb
        rcases List.mem_flatMap.mp hb2 with ⟨e, _, hbe⟩
        unfold entryBottlenecks at hbe
        rcases List.mem_append.mp hbe with h1 | h1
        · rcases mem_ite_singleton.mp h1 with ⟨hc, rfl⟩
          exact Or.inl ⟨rfl, hc⟩
        · rcases mem_ite_singleton.mp h1 with ⟨hc, rfl⟩
          exact Or.inr ⟨rfl, hc⟩
      · intro st e h1 h2
        unfold entryBottlenecks
        rw [if_pos h1, if_pos h2]
        rfl

/-- C4 witness: the scenario C entry (150 ms, 600 KiB) yields exactly the
two bottleneck issues, slow request then large file. -/
theorem C4_witness :
    (entryBottlenecks 0 cEntry).map Bottleneck.issue = [.slowRequest, .largeFile] :=
  (C4_bottlenecks [cEntry] cReport performAnalysis_cEntry).2.2 0 cEntry
    (by norm_num [cEntry]) (by norm_num [cEntry])

/-! Claim C5. -/

/-- C5 counterexample: on the trace [hEntryA, hEntryB] both entries are
html-class; hEntryB has the strictly smaller start offset, yet the
critical path contains the item of hEntryA, the first html entry in input
order, and not the item of hEntryB. -/
theorem C5_counterexample :
    identifyCriticalPath [hEntryA, hEntryB] = [htmlItem hEntryA] ∧
    relativeStart hEntryA.start hEntryB < relativeStart hEntryA.start hEntryA ∧
    htmlItem hEntryA ≠ htmlItem hEntryB := by
  refine ⟨?_, by norm_num [relativeStart, hEntryA, hEntryB], by decide⟩
  norm_num +decide [identifyCriticalPath, isHtmlEntry, isCriticalResource, critItem, htmlItem,
    hasSub, List.isPrefixOf, mimeHtml, mimeCss, mimeJs, analyticsStr, trackingStr, dots,
    hEntryA, hEntryB, List.insertionSort, List.orderedInsert, entryTimeLe, List.find?]

/-- C5 (amended): the html item of the critical path is the FIRST
html-class record in input order (entries.find), not the one with the
smallest start offset; it is followed by the css/js records whose URL
contains neither analytics nor tracking, sorted ascending by duration and
truncated to the first 5. -/
theorem C5_critical_path (entries : List Entry) (e : Entry)
    (h : entries.find? isHtmlEntry = some e) :
    isHtmlEntry e = true ∧
    identifyCriticalPath entries =
      htmlItem e ::
        ((List.insertionSort entryTimeLe (entries.filter isCriticalResource)).take 5).map
          critItem ∧
    ((List.insertionSort entryTimeLe (entries.filter isCriticalResource)).take 5).length ≤ 5 ∧
    List.Sorted ciLe
      (((List.insertionSort entryTimeLe (entries.filter isCriticalResource)).take 5).map
        critItem) ∧
    ∀ it ∈ ((List.insertionSort entryTimeLe (entries.filter isCriticalResource)).take 5).map
        critItem,
      ∃ x, x ∈ entries ∧ isCriticalResource x = true ∧ it = critItem x := by
  refine ⟨List.find?_some h, ?_, List.length_take_le 5 _, ?_, ?_⟩
  · unfold identifyCriticalPath
    rw [h]
    rfl
  · have hs : List.Sorted entryTimeLe
        (List.insertionSort entryTimeLe (entries.filter isCriticalResource)) :=
      List.sorted_insertionSort _ _
    have ht : List.Pairwise entryTimeLe
        ((List.insertionSort entryTimeLe (entries.filter isCriticalResource)).take 5) :=
      List.Pairwise.sublist (List.take_sublist 5 _) hs
    exact List.pairwise_map.mpr (ht.imp (fun hab => hab))
  · intro it hit
    rcases List.mem_map.mp hit with ⟨x, hx, rfl⟩
    have hx2 : x ∈ List.insertionSort entryTimeLe (entries.filter isCriticalResource) :=
      List.mem_of_mem_take hx
    have hx3 : x ∈ entries.filter isCriticalResource :=
      ((List.perm_insertionSort _ _).mem_iff).mp hx2
    rcases List.mem_filter.mp hx3 with ⟨hxe, hxc⟩
    exact ⟨x, hxe, hxc, rfl⟩

/-- C5 witness: on [hEntryA, hEntryB] the entry found first is hEntryA and
it passes the html test. -/
theorem C5_witness : isHtmlEntry hEntryA = true :=
  (C5_critical_path [hEntryA, hEntryB] hEntryA (by
    norm_num +decide [List.find?, isHtmlEntry, hasSub, List.isPrefixOf, mimeHtml,
      hEntryA, hEntryB])).1

/-! Claim C6. -/

/-- C6 counterexample: on the one-entry trace [pEntry] there is no
timeline Gap at all (the only performanceGaps element is the synthetic
target-exceeded finding), yet the MEDIUM Loading Strategy recommendation
is emitted, triggered by that synthetic finding alone. -/
theorem C6_counterexample :
    performAnalysis [pEntry] = some pReport ∧
    pReport.performanceGaps.any isTimelineGap = false ∧
    optLoadingStrategy ∈ pReport.optimizations := by
  refine ⟨performAnalysis_pEntry, by decide, by decide⟩

/-- C6 (amended): the MEDIUM Loading Strategy recommendation is emitted
if and only if the performanceGaps list is non-empty, and that list also
contains the synthetic target-exceeded finding whenever totalLoadTime
exceeds the target, so the synthetic finding alone does trigger the
rule. -/
theorem C6_loading_strategy (entries : List Entry) (r : Report)
    (h : performAnalysis entries = some r) :
    (optLoadingStrategy ∈ r.optimizations ↔ r.performanceGaps ≠ []) ∧
    (targetLoadTime < r.totalLoadTime →
      PerfGap.targetExceeded (r.totalLoadTime - targetLoadTime) ∈ r.performanceGaps) := by
  cases entries with
  | nil => cases h
  | cons e0 rest =>
      rw [performAnalysis_cons] at h
      injection h with h
      subst h
      constructor
      · show optLoadingStrategy ∈ generateOptimizationPlan _ _ _ ↔ _
        unfold generateOptimizationPlan
        simp only [List.mem_append, mem_ite_singleton]
        have h1 : optLoadingStrategy ≠ optImages := by decide
        have h2 : optLoadingStrategy ≠ optFileSize := by decide
        have h3 : optLoadingStrategy ≠ optNetwork := by decide
        have h4 : optLoadingStrategy ≠ optOverall := by decide
        simp [h1, h2, h3, h4, List.length_pos]
      · intro hlt
        show PerfGap.targetExceeded _ ∈ findPerformanceGaps _ _ _
        unfold findPerformanceGaps
        refine List.mem_append.mpr (Or.inr ?_)
        rw [if_pos hlt]
        exact List.mem_singleton_self _

/-- C6 witness: the amended rule applied to [pEntry], whose gap list is
non-empty (it holds the synthetic finding), emits Loading Strategy. -/
theorem C6_witness : optLoadingStrategy ∈ pReport.optimizations :=
  (C6_loading_strategy [pEntry] pReport performAnalysis_pEntry).1.mpr (by
    simp [pReport])

/-! Claim C7. -/

/-- C7: the resource class is a total function of mimeType, tested in the
fixed priority order text/html, text/css, javascript, image/, font/, with
fallback other; the empty mimeType maps to other, and classifying the
same record twice yields the same class and offsets (the embedding is a
pure function, so determinism is definitional). -/
theorem C7_classification (m : Str) :
    (classify m = .html ↔ hasSub mimeHtml m = true) ∧
    (classify m = .css ↔ (hasSub mimeHtml m = false ∧ hasSub mimeCss m = true)) ∧
    (classify m = .js ↔
      (hasSub mimeHtml m = false ∧ hasSub mimeCss m = false ∧ hasSub mimeJs m = true)) ∧
    (classify m = .image ↔
      (hasSub mimeHtml m = false ∧ hasSub mimeCss m = false ∧ hasSub mimeJs m = false ∧
       hasSub mimeImage m = true)) ∧
    (classify m = .font ↔
      (hasSub mimeHtml m = false ∧ hasSub mimeCss m = false ∧ hasSub mimeJs m = false ∧
       hasSub mimeImage m = false ∧ hasSub mimeFont m = true)) ∧
    (classify m = .other ↔
      (hasSub mimeHtml m = false ∧ hasSub mimeCss m = false ∧ hasSub mimeJs m = false ∧
       hasSub mimeImage m = false ∧ hasSub mimeFont m = false)) ∧
    classify [] = .other ∧
    ∀ (st : ℚ) (e : Entry), classifyEntry st e = classifyEntry st e := by
  have hmain : (classify m = .html ↔ hasSub mimeHtml m = true) ∧
      (classify m = .css ↔ (hasSub mimeHtml m = false ∧ hasSub mimeCss m = true)) ∧
      (classify m = .js ↔
        (hasSub mimeHtml m = false ∧ hasSub mimeCss m = false ∧ hasSub mimeJs m = true)) ∧
      (classify m = .image ↔
        (hasSub mimeHtml m = false ∧ hasSub mimeCss m = false ∧ hasSub mimeJs m = false ∧
         hasSub mimeImage m = true)) ∧
      (classify m = .font ↔
        (hasSub mimeHtml m = false ∧ hasSub mimeCss m = false ∧ hasSub mimeJs m = false ∧
         hasSub mimeImage m = false ∧ hasSub mimeFont m = true)) ∧
      (classify m = .other ↔
        (hasSub mimeHtml m = false ∧ hasSub mimeCss m = false ∧ hasSub mimeJs m = false ∧
         hasSub mimeImage m = false ∧ hasSub mimeFont m = false)) := by
    cases h1 : hasSub mimeHtml m <;> cases h2 : hasSub mimeCss m <;>
      cases h3 : hasSub mimeJs m <;> cases h4 : hasSub mimeImage m <;>
        cases h5 : hasSub mimeFont m <;>
          simp [classify, h1, h2, h3, h4, h5]
  exact ⟨hmain.1, hmain.2.1, hmain.2.2.1, hmain.2.2.2.1, hmain.2.2.2.2.1, hmain.2.2.2.2.2,
    by decide, fun _ _ => rfl⟩

/-- C7 witness: a mimeType containing text/html is classified html. -/
theorem C7_witness : classify mimeHtml = .html :=
  (C7_classification mimeHtml).1.mpr (by decide)

/-! Claim C8. -/

/-- C8: the per-class counts of the report breakdown sum to the number of
records in the trace, every breakdown slot has a positive count, and a
class appears in the breakdown exactly when some record of the trace has
that class. -/
theorem C8_breakdown_counts (entries : List Entry) (r : Report)
    (h : performAnalysis entries = some r) :
    countSum r.resourceBreakdown = entries.length ∧
    (∀ p ∈ r.resourceBreakdown, 1 ≤ p.2.count) ∧
    ∀ c : ResourceClass,
      c ∈ r.resourceBreakdown.map Prod.fst ↔ ∃ e ∈ entries, classify e.mimeType = c := by
  cases entries with
  | nil => cases h
  | cons e0 rest =>
      rw [performAnalysis_cons] at h
      injection h with h
      subst h
      obtain ⟨hnd, hok, hsum, hkeys⟩ := buildBreakdown_spec (e0 :: rest)
      refine ⟨?_, ?_, ?_⟩
      · show countSum (finalizeBreakdown (buildBreakdown (e0 :: rest))) = _
        rw [finalize_countSum, hsum]
      · intro p hp
        rcases mem_finalize.mp hp with ⟨q, hq, rfl⟩
        exact (hok q hq).1
      · intro c
        show c ∈ (finalizeBreakdown (buildBreakdown (e0 :: rest))).map Prod.fst ↔ _
        rw [finalize_keys]
        exact hkeys c

/-- C8 witness: on the one-entry trace [pEntry] the breakdown counts sum
to 1. -/
theorem C8_witness : countSum pReport.resourceBreakdown = [pEntry].length :=
  (C8_breakdown_counts [pEntry] pReport performAnalysis_pEntry).1

/-! Claim C9. -/

/-- C9 counterexample: two html records with durations 1 and 2 give
totalTime 3 and count 2; the exact quotient is 3/2 but the report stores
avgTime 2 = Math.round(3/2), so the stored average is not the exact
quotient. -/
theorem C9_counterexample :
    performAnalysis [qEntryA, qEntryB] = some qReport ∧
    qReport.resourceBreakdown = [(.html, ⟨2, 0, 3, 2⟩)] ∧
    ((2 : ℚ) ≠ (3 : ℚ) / ((2 : Nat) : ℚ)) :=
  ⟨performAnalysis_qEntries, rfl, by norm_num⟩

/-- C9 (amended): every avgTime stored in the report breakdown equals
Math.round(totalTime / count), the rounded quotient, not the exact
quotient. -/
theorem C9_avg_rounded (entries : List Entry) (r : Report)
    (h : performAnalysis entries = some r) :
    ∀ p ∈ r.resourceBreakdown,
      p.2.avgTime = (jsRound (p.2.totalTime / ((p.2.count : Nat) : ℚ)) : ℚ) := by
  cases entries with
  | nil => cases h
  | cons e0 rest =>
      rw [performAnalysis_cons] at h
      injection h with h
      subst h
      intro p hp
      rcases mem_finalize.mp hp with ⟨q, hq, rfl⟩
      have hok := (buildBreakdown_spec (e0 :: rest)).2.1 q hq
      show (jsRound q.2.avgTime : ℚ) = _
      rw [hok.2]

/-- C9 witness: the rounded average of the html class of the concrete
two-entry trace. -/
theorem C9_witness : (2 : ℚ) = (jsRound ((3 : ℚ) / ((2 : Nat) : ℚ)) : ℚ) :=
  C9_avg_rounded [qEntryA, qEntryB] qReport performAnalysis_qEntries
    (.html, ⟨2, 0, 3, 2⟩) (by simp [qReport])

/-! Claim C10. -/

/-- C10: for byte counts below 1024^4 the formatter selects a unit from
the four-element unit array (0 mapping to Bytes), the index staying in
bounds; from 1024^4 on, the index Nat.log 1024 b falls past the end of
the array and no well-formed unit exists, so b < 1024^4 is required. -/
theorem C10_format_bytes (b : Nat) :
    (b < 1024 ^ 4 → ∃ u, formatBytesUnit b = some u ∧ u ∈ sizes) ∧
    formatBytesUnit 0 = some bytesUnit ∧
    (1024 ^ 4 ≤ b → formatBytesUnit b = none) := by
  refine ⟨?_, by simp [formatBytesUnit], ?_⟩
  · intro hb
    by_cases h0 : b = 0
    · subst h0
      exact ⟨bytesUnit, by simp [formatBytesUnit], by simp [sizes]⟩
    · have hlog : Nat.log 1024 b < 4 := Nat.log_lt_of_lt_pow h0 hb
      have hlt : Nat.log 1024 b < sizes.length := by
        simpa [sizes] using hlog
      refine ⟨sizes[Nat.log 1024 b], ?_, List.getElem_mem hlt⟩
      simp [formatBytesUnit, h0, List.getElem?_eq_getElem hlt]
  · intro hb
    have h0 : b ≠ 0 := by
      intro h
      rw [h] at hb
      norm_num at hb
    have hlog : 4 ≤ Nat.log 1024 b := (Nat.pow_le_iff_le_log (by norm_num) h0).mp hb
    have hlen : sizes.length ≤ Nat.log 1024 b := by simpa [sizes] using hlog
    simp [formatBytesUnit, h0, List.getElem?_eq_none hlen]

/-- C10 witness: 1500 bytes get a well-formed unit. -/
theorem C10_witness : ∃ u, formatBytesUnit 1500 = some u ∧ u ∈ sizes :=
  (C10_format_bytes 1500).1 (by norm_num)
